import Mathlib

/- Verification of the ts-live-server request-serving engine: a shallow
embedding of src/src/server.ts (class LiveServer) and of the transpiler
module (transpileFile) over lists of characters. The filesystem and the
external esbuild transform are explicit parameters; paths are lists of
segments keyed into the filesystem after normalization, mirroring what
Node's path.join produces for POSIX paths. -/

namespace TSLS

/- Text (file contents, URL pathnames, response bodies) is a list of
characters; `strL` converts a Lean string literal. -/
abbrev Str := List Char

def strL (s : String) : Str := s.toList

/- ---------- string constants from server.ts / transpiler.ts ---------- -/

def wsPathname : Str := strL "/__ts-live-server-ws"

def indexHtml : Str := strL "index.html"

def htmlExt : Str := strL ".html"

def jsExt : Str := strL ".js"

def tsExt : Str := strL ".ts"

def tsxExt : Str := strL ".tsx"

def jsxExt : Str := strL ".jsx"

def reloadToken : Str := strL "reload"

def appJsMime : Str := strL "application/javascript"

def textPlainMime : Str := strL "text/plain"

def textHtmlMime : Str := strL "text/html"

def octetStreamMime : Str := strL "application/octet-stream"

def bodyCloseTag : Str := strL "</body>"

/- MIME_TYPES from server.ts lines 8-36. -/
def MIME_TYPES : List (Str × Str) :=
  [ ( ".html", "text/html"),
    ( ".css", "text/css"),
    ( ".js", "application/javascript"),
    ( ".mjs", "application/javascript"),
    ( ".ts", "application/javascript"),
    ( ".tsx", "application/javascript"),
    ( ".jsx", "application/javascript"),
    ( ".json", "application/json"),
    ( ".png", "image/png"),
    ( ".jpg", "image/jpeg"),
    ( ".jpeg", "image/jpeg"),
    ( ".gif", "image/gif"),
    ( ".svg", "image/svg+xml"),
    ( ".ico", "image/x-icon"),
    ( ".webp", "image/webp"),
    ( ".woff", "font/woff"),
    ( ".woff2", "font/woff2"),
    ( ".ttf", "font/ttf"),
    ( ".eot", "application/vnd.ms-fontobject"),
    ( ".otf", "font/otf"),
    ( ".mp4", "video/mp4"),
    ( ".webm", "video/webm"),
    ( ".mp3", "audio/mpeg"),
    ( ".wav", "audio/wav"),
    ( ".pdf", "application/pdf"),
    ( ".txt", "text/plain"),
    ( ".xml", "application/xml") ].map (fun q => (strL q.1, strL q.2))

/- TRANSPILE_EXTENSIONS from server.ts line 39. -/
def TRANSPILE_EXTENSIONS : List Str := [ ".ts", ".tsx", ".jsx"].map strL

/- LIVE_RELOAD_SCRIPT from server.ts lines 42-62, the exact template
literal (braces written with hex escapes). -/
def LIVE_RELOAD_SCRIPT : Str := strL
  "\n<script>\n(function() \x7b\n    const protocol = window.location.protocol === 'https:' ? 'wss:' : 'ws:';\n    const ws = new WebSocket(protocol + '//' + window.location.host + '/__ts-live-server-ws');\n    \n    ws.onmessage = function(event) \x7b\n        if (event.data === 'reload') \x7b\n            window.location.reload();\n        \x7d\n    \x7d;\n    \n    ws.onclose = function() \x7b\n        console.log('TS Live Server: Connection lost. Attempting to reconnect...');\n        setTimeout(function() \x7b\n            window.location.reload();\n        \x7d, 1000);\n    \x7d;\n\x7d)();\n</script>\n"

/- The 404 page from server.ts lines 293-321 is the text before the
interpolated pathname and the text after it. -/
def page404Pre : Str := strL
  "\n            <!DOCTYPE html>\n            <html>\n            <head>\n                <title>404 - Not Found</title>\n                <style>\n                    body \x7b \n                        font-family: -apple-system, BlinkMacSystemFont, 'Segoe UI', Roboto, sans-serif;\n                        display: flex;\n                        justify-content: center;\n                        align-items: center;\n                        height: 100vh;\n                        margin: 0;\n                        background: #1e1e1e;\n                        color: #fff;\n                    \x7d\n                    .container \x7b text-align: center; \x7d\n                    h1 \x7b font-size: 4em; margin: 0; color: #007acc; \x7d\n                    p \x7b color: #888; \x7d\n                </style>\n            </head>\n            <body>\n                <div class=\"container\">\n                    <h1>404</h1>\n                    <p>File not found: "

def page404Post : Str := strL
  "</p>\n                </div>\n            </body>\n            </html>\n        "

/- ---------- path strings: split, normalize, join, extname ---------- -/

/- Splitting a pathname on the slash character (the segments an absolute
POSIX path is made of; empty segments are kept here and dropped during
normalization, as Node's path normalization does). -/
def splitSlash : Str → List Str
  | [] => [[]]
  | c :: rest =>
    if c = '/' then [] :: splitSlash rest
    else
      match splitSlash rest with
      | [] => [[c]]
      | seg :: segs => (c :: seg) :: segs

/- One step of POSIX path normalization over segments: empty and "."
segments vanish, ".." removes the previous segment (and is dropped at the
root, as in path.join on an absolute base). -/
def normStep (acc : List Str) (seg : Str) : List Str :=
  if seg = [] then acc
  else if seg = ['.'] then acc
  else if seg = ['.', '.'] then acc.dropLast
  else acc ++ [seg]

def normSegs (segs : List Str) : List Str := segs.foldl normStep []

/- path.join(rootDir, pathname) from server.ts line 170: the root's
segments followed by the request path's segments, normalized. -/
def joinPath (root : List Str) (pathname : Str) : List Str :=
  normSegs (root ++ splitSlash pathname)

/- The basename segment of a path (empty for the root path). -/
def lastSeg : List Str → Str
  | [] => []
  | [s] => s
  | _ :: t :: rest => lastSeg (t :: rest)

/- path.extname on a segment: the text from the final dot, empty when
there is no dot or the only dot leads the name (".bashrc"). -/
def extname (s : Str) : Str :=
  let r := s.reverse
  let pre := r.takeWhile (fun c => c != '.')
  if pre.length = r.length then []
  else if pre.length + 1 = r.length then []
  else '.' :: pre.reverse

def lower (s : Str) : Str := s.map Char.toLower

/- Rewriting the last path segment (the basename) of a non-empty path. -/
def withLastSeg : List Str → (Str → Str) → List Str
  | [], _ => []
  | [s], f => [f s]
  | s :: t :: rest, f => s :: withLastSeg (t :: rest) f

/- ---------- the filesystem and the external transpiler ---------- -/

/- A filesystem entry: a directory, or a file whose content is `some`
text, or `none` when the file exists (stat and access succeed) but
reading it fails (deleted between resolution and read, or unreadable). -/
inductive Entry
  | dir
  | file (content : Option Str)
deriving DecidableEq

abbrev FS := List Str → Option Entry

def enoentMsg : Str := strL "ENOENT"

def eisdirMsg : Str := strL "EISDIR"

def ereadMsg : Str := strL "EREAD"

/- fs.promises.readFile: succeeds only on a file whose content is
readable; the error text abstracts the Node error message. -/
def readFile (fs : FS) (p : List Str) : Except Str Str :=
  match fs p with
  | some (.file (some c)) => .ok c
  | some (.file none) => .error ereadMsg
  | some .dir => .error eisdirMsg
  | none => .error enoentMsg

/- The esbuild loader chosen in transpiler.ts lines 13-26 (default "js"). -/
inductive Loader
  | ts
  | tsx
  | jsx
  | js
deriving DecidableEq

/- The external esbuild transform (spec section 6: a black-box, side-effect
free function from source text and loader to compiled text or an error). -/
abbrev Esb := Str → Loader → Except Str Str

def loaderForExt (ext : Str) : Loader :=
  if ext = tsExt then .ts
  else if ext = tsxExt then .tsx
  else if ext = jsxExt then .jsx
  else .js

def renderPath (p : List Str) : Str := p.foldl (fun acc s => acc ++ '/' :: s) []

def failedTranspilePre : Str := strL "Failed to transpile "

def colonSpace : Str := strL ": "

/- transpileFile from transpiler.ts lines 8-50: read the file (a read
failure propagates as is, the read sits before the try block), pick the
loader from the lowercased extension, call esbuild; an esbuild error is
rewrapped with the file path. -/
def transpileFile (fs : FS) (esb : Esb) (p : List Str) : Except Str Str :=
  match readFile fs p with
  | .error e => .error e
  | .ok content =>
    match esb content (loaderForExt (lower (extname (lastSeg p)))) with
    | .ok code => .ok code
    | .error msg => .error (failedTranspilePre ++ renderPath p ++ colonSpace ++ msg)

/- ---------- responses ---------- -/

structure Response where
  status : Nat
  contentType : Str
  body : Str
deriving DecidableEq

def transpilationErrorPre : Str := strL "Transpilation error: "

/- serveTranspiledFile from server.ts lines 249-263: 200 with
application/javascript on success, 500 text/plain on any error. -/
def serveTranspiledFile (fs : FS) (esb : Esb) (p : List Str) : Response :=
  match transpileFile fs esb p with
  | .ok code => ⟨200, appJsMime, code⟩
  | .error e => ⟨500, textPlainMime, transpilationErrorPre ++ e⟩

def lookupMime (ext : Str) : Str := (List.lookup ext MIME_TYPES).getD octetStreamMime

/- html.includes(pat): pat occurs as a contiguous substring. -/
def containsSub (pat : Str) : Str → Bool
  | [] => pat.isPrefixOf []
  | c :: rest => pat.isPrefixOf (c :: rest) || containsSub pat rest

/- html.replace(pat, rep) for a non-empty plain pattern: replace the
first (leftmost) occurrence only, as JavaScript String.replace does. -/
def replaceSub (pat rep : Str) : Str → Str
  | [] => []
  | c :: rest =>
    if pat.isPrefixOf (c :: rest) then rep ++ (c :: rest).drop pat.length
    else c :: replaceSub pat rep rest

/- The injection step of serveStaticFile (server.ts lines 270-281). -/
def injectReload (html : Str) : Str :=
  if containsSub bodyCloseTag html then
    replaceSub bodyCloseTag (LIVE_RELOAD_SCRIPT ++ bodyCloseTag) html
  else html ++ LIVE_RELOAD_SCRIPT

/- serveStaticFile from server.ts lines 265-289: read the file (a read
error propagates to handleRequest's catch), inject the live-reload
script into .html content when live reload is on, 200 with the looked-up
content type. -/
def serveStaticFile (fs : FS) (p : List Str) (ext : Str) (liveReload : Bool) :
    Except Str Response :=
  match readFile fs p with
  | .error e => .error e
  | .ok content =>
    .ok ⟨200, lookupMime ext,
         if ext = htmlExt ∧ liveReload then injectReload content else content⟩

/- send404 from server.ts lines 291-322: the fixed page with the decoded
pathname interpolated after "File not found: ". -/
def send404 (pathname : Str) : Response :=
  ⟨404, textHtmlMime, page404Pre ++ pathname ++ page404Post⟩

/- resolveFile from server.ts lines 227-247: only for a ".js" extension
(extname here is not lowercased), strip the last three characters and
probe .ts, .tsx, .jsx in that order; first existing wins. -/
def resolveFile (fs : FS) (p : List Str) : Option (List Str) :=
  if extname (lastSeg p) = jsExt then
    let cand := fun (e : Str) => withLastSeg p (fun s => s.take (s.length - 3) ++ e)
    if (fs (cand tsExt)).isSome then some (cand tsExt)
    else if (fs (cand tsxExt)).isSome then some (cand tsxExt)
    else if (fs (cand jsxExt)).isSome then some (cand jsxExt)
    else none
  else none

/- filePath.replace(/\.js$/, e): rewrite the basename's ".js" suffix
(case-sensitively; a non-matching name is left unchanged). -/
def jsAlt (p : List Str) (e : Str) : List Str :=
  withLastSeg p (fun s => if jsExt.isSuffixOf s then s.take (s.length - 3) ++ e else s)

/- The stat/resolve step of handleRequest (server.ts lines 172-185): a
directory substitutes index.html inside itself; a missing entry (stat
throws) tries resolveFile, keeping the joined path when that finds no
alternative either. -/
def resolvePath (fs : FS) (fp0 : List Str) : List Str :=
  match fs fp0 with
  | some .dir => fp0 ++ [indexHtml]
  | some (.file _) => fp0
  | none =>
    match resolveFile fs fp0 with
    | some r => r
    | none => fp0

/- handleRequest from server.ts lines 160-225, for a GET whose decoded
pathname is given. `none` is the early return for the reserved websocket
endpoint (no response is written). resolvePath is the stat/resolve step;
then the access check, the transpile branch, the .js-prefers-.ts/.tsx
branch, the static branch, and the catch-all 404. -/
def handleRequest (rootDir : List Str) (liveReload : Bool) (fs : FS) (esb : Esb)
    (pathname : Str) : Option Response :=
  if pathname = wsPathname then none
  else
    let fp1 := resolvePath fs (joinPath rootDir pathname)
    let ext := lower (extname (lastSeg fp1))
    if (fs fp1).isSome then
      if TRANSPILE_EXTENSIONS.contains ext then some (serveTranspiledFile fs esb fp1)
      else if ext = jsExt then
        if (fs (jsAlt fp1 tsExt)).isSome then some (serveTranspiledFile fs esb (jsAlt fp1 tsExt))
        else if (fs (jsAlt fp1 tsxExt)).isSome then some (serveTranspiledFile fs esb (jsAlt fp1 tsxExt))
        else
          match serveStaticFile fs fp1 ext liveReload with
          | .ok r => some r
          | .error _ => some (send404 pathname)
      else
        match serveStaticFile fs fp1 ext liveReload with
        | .ok r => some r
        | .error _ => some (send404 pathname)
    else some (send404 pathname)

/- ---------- server lifecycle and the live-reload channel ---------- -/

/- WebSocket readyState values. -/
inductive ReadyState
  | CONNECTING
  | OPEN
  | CLOSING
  | CLOSED
deriving DecidableEq

structure Client where
  id : Nat
  readyState : ReadyState
deriving DecidableEq

/- The LiveServer instance fields (server.ts lines 64-68): the http server
handle and the WebSocketServer are reduced to presence bits, the client
set to a list. -/
structure ServerState where
  server : Bool
  wss : Bool
  clients : List Client
  running : Bool
deriving DecidableEq

def initialState : ServerState := ⟨false, false, [], false⟩

def isRunning (s : ServerState) : Bool := s.running

inductive StartError
  | portInUse
  | other
deriving DecidableEq

/- start() from server.ts lines 76-121. The http server handle is created
first; the websocket server is attached when live reload is enabled; the
listen outcome is the environment's input: a port already bound fires the
EADDRINUSE error handler (reject, running still false), otherwise the
listen callback sets running. -/
def start (liveReload : Bool) (portInUse : Bool) (s : ServerState) :
    ServerState × Except StartError Unit :=
  let s1 : ServerState := { s with server := true, wss := if liveReload then true else s.wss }
  if portInUse then (s1, .error .portInUse)
  else ({ s1 with running := true }, .ok ())

/- stop() from server.ts lines 123-150: close every client socket, clear
the set, drop the websocket server; when the http handle exists close it,
set running false and drop it. Returns the ids of the sockets that were
closed before stop resolved. -/
def stop (s : ServerState) : ServerState × List Nat :=
  let closedIds := s.clients.map Client.id
  let s1 : ServerState := { s with clients := [], wss := false }
  if s.server then ({ s1 with running := false, server := false }, closedIds)
  else (s1, closedIds)

/- notifyClients() from server.ts lines 152-158: send the fixed reload
token to every client whose readyState is OPEN; the result lists the
(client id, message) deliveries in iteration order. -/
def notifyClients (clients : List Client) : List (Nat × Str) :=
  clients.filterMap (fun c =>
    if c.readyState = ReadyState.OPEN then some (c.id, reloadToken) else none)

/- handleRequest threaded through the instance state: the source handler
assigns no instance field while serving, so the state passes unchanged. -/
def handleRequestSt (st : ServerState) (rootDir : List Str) (liveReload : Bool)
    (fs : FS) (esb : Esb) (pathname : Str) : Option Response × ServerState :=
  (handleRequest rootDir liveReload fs esb pathname, st)

/- ---------- concrete instances used by the claim theorems ---------- -/

/- A transpiler that always fails; requests below never reach it. -/
def esbNone : Esb := fun _ _ => .error []

def rootR : List Str := [ strL "r"]

def rootC1 : List Str := [ strL "srv", strL "www"]

def fsC1 : FS := fun p =>
  if p = [ strL "etc", strL "passwd"] then some (.file (some (strL "SECRET"))) else none

def fsC2 : FS := fun p =>
  if p = [ strL "r", strL "x.js"] then some (.file (some (strL "RAWJS")))
  else if p = [ strL "r", strL "x.jsx"] then some (.file (some (strL "SRCJSX")))
  else none

def esbC2 : Esb := fun c l =>
  if c == strL "SRCJSX" && l == Loader.jsx then .ok (strL "OUTJSX") else .error []

def fsC3 : FS := fun p =>
  if p = [ strL "site", strL "__ts-live-server-ws"] then some .dir
  else if p = [ strL "site", strL "__ts-live-server-ws", strL "index.html"] then
    some (.file (some (strL "HI")))
  else none

def rootC3 : List Str := [ strL "site"]

def clientsC6 : List Client := [⟨1, .OPEN⟩, ⟨2, .OPEN⟩, ⟨3, .OPEN⟩]

def stateC7 : ServerState := ⟨true, true, [⟨1, .OPEN⟩, ⟨2, .OPEN⟩, ⟨3, .OPEN⟩], true⟩

def fsC9 : FS := fun p =>
  if p = [ strL "r", strL "app.ts"] then some (.file (some (strL "T"))) else none

def fsC10 : FS := fun q =>
  if q = [ strL "r", strL "app.tsx"] then some (.file (some (strL "SRC"))) else none

def esbC10 : Esb := fun c l =>
  if c == strL "SRC" && l == Loader.tsx then .ok (strL "COMPILED") else .error []

def fsC8 : FS := fun p =>
  if p = [ strL "r", strL "a.ts"] then some (.file none) else none

def fsEmpty : FS := fun _ => none

def fsC3w : FS := fun p =>
  if p = [ strL "r", strL "d"] then some .dir
  else if p = [ strL "r", strL "d", strL "index.html"] then
    some (.file (some (strL "PAGE")))
  else none

/- A pattern occurs at index i of s when the slice of s starting at i
equals the pattern. -/
def occursAt (pat s : Str) (i : Nat) : Prop := (s.drop i).take pat.length = pat

def fsC4 : FS := fun q =>
  if q = [ strL "r", strL "x.html"] then some (.file (some LIVE_RELOAD_SCRIPT)) else none

def fsC4w : FS := fun q =>
  if q = [ strL "w.html"] then some (.file (some (strL "<p></body>"))) else none

def fsC2w : FS := fun q =>
  if q = [ strL "r", strL "x.ts"] then some (.file (some (strL "A"))) else none

def esbC2w : Esb := fun _ _ => .ok (strL "B")

/- ---------- helper lemmas ---------- -/

theorem take_append_len (a b : Str) : (a ++ b).take a.length = a := by
  induction a with
  | nil => rfl
  | cons c cs ih => simp [ih]

theorem drop_append_len (a b : Str) : (a ++ b).drop a.length = b := by
  induction a with
  | nil => rfl
  | cons c cs ih => simp [ih]

theorem isPrefixOf_append_self : ∀ (a b : Str), a.isPrefixOf (a ++ b) = true
  | [], b => by cases b <;> rfl
  | c :: cs, b => by simp [List.isPrefixOf, isPrefixOf_append_self cs b]

theorem isSuffixOf_append_self (a b : Str) : b.isSuffixOf (a ++ b) = true := by
  simp [List.isSuffixOf, List.reverse_append, isPrefixOf_append_self]

theorem eq_append_drop_of_isPrefixOf :
    ∀ (pat t : Str), pat.isPrefixOf t = true → t = pat ++ t.drop pat.length
  | [], t, _ => by simp
  | c :: cs, [], h => by simp [List.isPrefixOf] at h
  | c :: cs, d :: ds, h => by
    rw [List.isPrefixOf] at h
    have h' := h
    simp only [Bool.and_eq_true, beq_iff_eq] at h'
    obtain ⟨h1, h2⟩ := h'
    subst h1
    have ih := eq_append_drop_of_isPrefixOf cs ds h2
    simpa using ih

theorem containsSub_of_isPrefixOf (pat s : Str) (h : pat.isPrefixOf s = true) :
    containsSub pat s = true := by
  cases s with
  | nil => simpa [containsSub] using h
  | cons c r => simp [containsSub, h]

theorem containsSub_sandwich (pat xs ys : Str) :
    containsSub pat (xs ++ pat ++ ys) = true := by
  induction xs with
  | nil =>
    simp only [List.nil_append]
    exact containsSub_of_isPrefixOf _ _ (isPrefixOf_append_self pat ys)
  | cons c xs ih =>
    simpa [containsSub] using Or.inr ih

theorem replaceSub_first (pat rep : Str) (hp : pat ≠ []) :
    ∀ s : Str, containsSub pat s = true →
      ∃ i, pat.isPrefixOf (s.drop i) = true ∧
        (∀ j, j < i → pat.isPrefixOf (s.drop j) = false) ∧
        replaceSub pat rep s = s.take i ++ rep ++ s.drop (i + pat.length) := by
  intro s
  induction s with
  | nil =>
    intro h
    cases pat with
    | nil => exact absurd rfl hp
    | cons c cs => simp [containsSub, List.isPrefixOf] at h
  | cons c rest ih =>
    intro h
    by_cases hpre : pat.isPrefixOf (c :: rest) = true
    · refine ⟨0, hpre, fun j hj => absurd hj (Nat.not_lt_zero j), ?_⟩
      simp [replaceSub, hpre]
    · have hpre' : pat.isPrefixOf (c :: rest) = false := by
        cases hb : pat.isPrefixOf (c :: rest) with
        | false => rfl
        | true => exact absurd hb hpre
      have hcont : containsSub pat rest = true := by
        simpa [containsSub, hpre'] using h
      obtain ⟨i, h1, h2, h3⟩ := ih hcont
      refine ⟨i + 1, by simpa using h1, ?_, ?_⟩
      · intro j hj
        cases j with
        | zero => simpa using hpre'
        | succ j' => simpa using h2 j' (by omega)
      · rw [show i + 1 + pat.length = (i + pat.length) + 1 by omega]
        simp [replaceSub, hpre', h3]

theorem lastSeg_concat : ∀ (xs : List Str) (a : Str), lastSeg (xs ++ [a]) = a
  | [], _ => rfl
  | [_], _ => rfl
  | _ :: y :: rest, a => lastSeg_concat (y :: rest) a

theorem withLastSeg_eq :
    ∀ (p : List Str) (f : Str → Str), p ≠ [] →
      withLastSeg p f = p.dropLast ++ [f (lastSeg p)]
  | [], _, h => absurd rfl h
  | [_], _, _ => rfl
  | s :: t :: rest, f, _ => by
    have ih := withLastSeg_eq (t :: rest) f (by simp)
    show s :: withLastSeg (t :: rest) f = _
    rw [ih]
    rfl

theorem takeWhile_append_stop (p : Char → Bool) (c : Char) (hc : p c = false) :
    ∀ (xs ys : Str), (∀ x ∈ xs, p x = true) →
      List.takeWhile p (xs ++ c :: ys) = xs
  | [], ys, _ => by simp [List.takeWhile, hc]
  | x :: xs, ys, hall => by
    have hx : p x = true := hall x (by simp)
    have ih := takeWhile_append_stop p c hc xs ys (fun a ha => hall a (by simp [ha]))
    simp [List.takeWhile, hx, ih]

/- extname on a basename of the shape base ++ "." ++ w, where the base is
non-empty and w holds no dot: the extension is "." ++ w. -/
theorem extname_dot (s0 w : Str) (hw : w ≠ []) (hwd : ∀ c ∈ w, (c != '.') = true)
    (hs0 : s0 ≠ []) : extname (s0 ++ '.' :: w) = '.' :: w := by
  have hrev : (s0 ++ '.' :: w).reverse = w.reverse ++ '.' :: s0.reverse := by
    simp
  have htw : List.takeWhile (fun c => c != '.') (w.reverse ++ '.' :: s0.reverse)
      = w.reverse := by
    refine takeWhile_append_stop _ '.' (by decide) _ _ ?_
    intro x hx
    exact hwd x (List.mem_reverse.mp hx)
  have hlw : w.length ≠ 0 := by
    intro h0
    exact hw (List.length_eq_zero.mp h0)
  have hls : s0.length ≠ 0 := by
    intro h0
    exact hs0 (List.length_eq_zero.mp h0)
  simp only [extname]
  rw [hrev, htw]
  simp only [List.length_reverse, List.length_append, List.length_cons]
  rw [if_neg (by omega), if_neg (by omega)]
  simp

theorem splitSlash_ne_nil : ∀ s : Str, splitSlash s ≠ []
  | [] => by simp [splitSlash]
  | c :: rest => by
    by_cases hc : c = '/'
    · simp [splitSlash, hc]
    · have := splitSlash_ne_nil rest
      simp only [splitSlash, if_neg hc]
      cases h : splitSlash rest with
      | nil => exact absurd h this
      | cons seg segs => simp

theorem splitSlash_append (w : Str) :
    ∀ s : Str, splitSlash (s ++ '/' :: w) = splitSlash s ++ splitSlash w
  | [] => by simp [splitSlash]
  | c :: rest => by
    by_cases hc : c = '/'
    · simp [splitSlash, hc, splitSlash_append w rest]
    · have ih := splitSlash_append w rest
      simp only [List.cons_append, splitSlash, if_neg hc, List.append_eq]
      rw [ih]
      cases h : splitSlash rest with
      | nil => exact absurd h (splitSlash_ne_nil rest)
      | cons seg segs => simp [h]

/- Appending one plain segment (no "", "." or "..") commutes with
normalization. -/
theorem normSegs_concat (xs : List Str) (s : Str) (h1 : s ≠ []) (h2 : s ≠ ['.'])
    (h3 : s ≠ ['.', '.']) : normSegs (xs ++ [s]) = normSegs xs ++ [s] := by
  unfold normSegs
  rw [List.foldl_append]
  simp [normStep, h1, h2, h3]

theorem append_index_ne_ws (p : Str) : p ++ strL "/index.html" ≠ wsPathname := by
  intro h
  have hlen : p.length + (strL "/index.html").length = wsPathname.length := by
    simpa using congrArg List.length h
  have h11 : (strL "/index.html").length = 11 := by decide
  have h20 : wsPathname.length = 20 := by decide
  have hp : p.length = 9 := by omega
  have hd := congrArg (List.drop 9) h
  have hd2 : (p ++ strL "/index.html").drop p.length = wsPathname.drop 9 := by
    rw [hp]
    exact hd
  rw [drop_append_len] at hd2
  exact absurd hd2 (by decide)

/- ---------- concrete instances used by the claim theorems ---------- -/

/-- C1: the spec requires any decoded request path that escapes the root
after normalization to be answered 404 and never served. The code builds
path.join(rootDir, pathname) with no containment check: for root
/srv/www and decoded path /../../etc/passwd the joined, normalized path
is /etc/passwd, which is not under the root, yet the file there is served
with status 200 and its full content. -/
theorem c1_traversal_serves_file_above_root :
    joinPath rootC1 (strL "/../../etc/passwd") = [ strL "etc", strL "passwd"] ∧
    rootC1.isPrefixOf (joinPath rootC1 (strL "/../../etc/passwd")) = false ∧
    handleRequest rootC1 false fsC1 esbNone (strL "/../../etc/passwd") =
      some ⟨200, octetStreamMime, strL "SECRET"⟩ := by
  refine ⟨by decide, by decide, by decide⟩

/-- C2 counterexample: with both x.js and x.jsx on disk (and no x.ts or
x.tsx), a request for /x.js serves the literal bytes of x.js, not the
transpilation of x.jsx: the exists-branch of handleRequest only probes
.ts and .tsx, never .jsx. This falsifies the claim that any existing
source alternative among .ts/.tsx/.jsx is preferred over the literal
x.js bytes. -/
theorem c2_counterexample :
    fsC2 [ strL "r", strL "x.jsx"] = some (.file (some (strL "SRCJSX"))) ∧
    esbC2 (strL "SRCJSX") Loader.jsx = .ok (strL "OUTJSX") ∧
    handleRequest rootR false fsC2 esbC2 (strL "/x.js") =
      some ⟨200, appJsMime, strL "RAWJS"⟩ ∧
    strL "RAWJS" ≠ strL "OUTJSX" := by
  refine ⟨by decide, rfl, by decide, by decide⟩

/-- C3 counterexample: a directory named like the reserved websocket
endpoint. The request path resolves to an existing directory containing
index.html, yet serving it produces no response at all (the handler
returns early for the reserved pathname), while serving p/index.html
produces a 200 response; the two are not equal. -/
theorem c3_counterexample :
    fsC3 (joinPath rootC3 (strL "/__ts-live-server-ws")) = some Entry.dir ∧
    fsC3 (joinPath rootC3 (strL "/__ts-live-server-ws") ++ [indexHtml]) =
      some (.file (some (strL "HI"))) ∧
    handleRequest rootC3 false fsC3 esbNone (strL "/__ts-live-server-ws") = none ∧
    handleRequest rootC3 false fsC3 esbNone (strL "/__ts-live-server-ws/index.html") =
      some ⟨200, textHtmlMime, strL "HI"⟩ ∧
    handleRequest rootC3 false fsC3 esbNone (strL "/__ts-live-server-ws") ≠
      handleRequest rootC3 false fsC3 esbNone (strL "/__ts-live-server-ws/index.html") := by
  refine ⟨by decide, by decide, by decide, by decide, by decide⟩

/-- C5: start() on an occupied port rejects with the port-in-use error
and the server stays stopped: running is only ever set by the listen
success callback, which the EADDRINUSE error path never reaches. -/
theorem c5_port_in_use_keeps_stopped (s : ServerState) (lr : Bool)
    (h : s.running = false) :
    (start lr true s).2 = .error .portInUse ∧ isRunning (start lr true s).1 = false := by
  simp [start, isRunning, h]

/-- C5 witness at the initial (stopped) state. -/
theorem c5_witness :
    (start true true initialState).2 = .error .portInUse ∧
    isRunning (start true true initialState).1 = false :=
  c5_port_in_use_keeps_stopped initialState true rfl

theorem notifyClients_mem (cs : List Client) (x : Nat × Str)
    (hx : x ∈ notifyClients cs) :
    ∃ c ∈ cs, c.readyState = ReadyState.OPEN ∧ x = (c.id, reloadToken) := by
  simp only [notifyClients, List.mem_filterMap] at hx
  obtain ⟨c, hc, hf⟩ := hx
  by_cases ho : c.readyState = ReadyState.OPEN
  · rw [if_pos ho] at hf
    exact ⟨c, hc, ho, (Option.some_inj.mp hf).symm⟩
  · rw [if_neg ho] at hf
    exact absurd hf (by simp)

/-- C6: notifyClients sends the fixed reload token to exactly the
connections in the OPEN state: when every connection in the set is open
the delivery list is one token per connection in order; in general every
delivery goes to an open member of the set at the moment of the call, so
non-open connections are skipped and connections added later get
nothing. -/
theorem c6_notify_broadcast (cs : List Client) :
    ((∀ c ∈ cs, c.readyState = ReadyState.OPEN) →
      notifyClients cs = cs.map (fun c => (c.id, reloadToken))) ∧
    (∀ x ∈ notifyClients cs, ∃ c ∈ cs, c.readyState = ReadyState.OPEN ∧
      x = (c.id, reloadToken)) ∧
    (∀ x ∈ notifyClients cs, x.1 ∈ cs.map Client.id) := by
  refine ⟨?_, fun x hx => notifyClients_mem cs x hx, ?_⟩
  · induction cs with
    | nil => intro _; rfl
    | cons c cs ih =>
      intro hall
      have hc : c.readyState = ReadyState.OPEN := hall c (by simp)
      have ih' := ih (fun d hd => hall d (List.mem_cons_of_mem _ hd))
      simp only [notifyClients, List.filterMap_cons, hc, if_pos, List.map_cons]
      rw [show (List.filterMap (fun c => if c.readyState = ReadyState.OPEN then
        some (c.id, reloadToken) else none) cs) = notifyClients cs from rfl, ih']
  · intro x hx
    obtain ⟨c, hc, _, hxe⟩ := notifyClients_mem cs x hx
    rw [hxe]
    exact List.mem_map_of_mem Client.id hc

/-- C6 witness: three open connections get exactly three reload tokens. -/
theorem c6_witness :
    notifyClients clientsC6 =
      [(1, reloadToken), (2, reloadToken), (3, reloadToken)] :=
  (c6_notify_broadcast clientsC6).1 (by decide)

/-- C7: stop() on a server whose listen handle exists closes every client
socket before returning (the returned closure list is exactly the client
set), empties the connection set, leaves running false, and a subsequent
notifyClients on the resulting state delivers nothing. -/
theorem c7_stop_closes_all (s : ServerState) (h : s.server = true) :
    (stop s).2 = s.clients.map Client.id ∧ (stop s).1.clients = [] ∧
    notifyClients (stop s).1.clients = [] ∧ isRunning (stop s).1 = false := by
  simp [stop, h, notifyClients, isRunning]

/-- C7 witness: a running server with three open connections. -/
theorem c7_witness :
    (stop stateC7).2 = [1, 2, 3] ∧ (stop stateC7).1.clients = [] ∧
    notifyClients (stop stateC7).1.clients = [] ∧ isRunning (stop stateC7).1 = false := by
  have h := c7_stop_closes_all stateC7 rfl
  simpa [stateC7] using h

/-- C9: serving the same request twice in sequence against the same
filesystem yields identical responses, and the handler leaves the server
state untouched (the source handler assigns no instance field, and the
response is a function of the immutable config, the filesystem snapshot
and the transpiler alone). -/
theorem c9_serve_twice_identical (st : ServerState) (root : List Str) (lr : Bool)
    (fs : FS) (esb : Esb) (p : Str) :
    (handleRequestSt st root lr fs esb p).1 =
      (handleRequestSt (handleRequestSt st root lr fs esb p).2 root lr fs esb p).1 ∧
    (handleRequestSt st root lr fs esb p).2 = st :=
  ⟨rfl, rfl⟩

/-- C9 witness at a concrete transpiled request. -/
theorem c9_witness :
    (handleRequestSt initialState rootR true fsC9 esbNone (strL "/app.ts")).1 =
      (handleRequestSt (handleRequestSt initialState rootR true fsC9 esbNone
        (strL "/app.ts")).2 rootR true fsC9 esbNone (strL "/app.ts")).1 ∧
    (handleRequestSt initialState rootR true fsC9 esbNone (strL "/app.ts")).2 =
      initialState :=
  c9_serve_twice_identical initialState rootR true fsC9 esbNone (strL "/app.ts")

/-- C10: a request that resolves to an existing readable file with a
transpilable extension (.ts/.tsx/.jsx after lowercasing) is answered 200
with content type application/javascript and the transpiler's output for
that file's contents, never the raw source text. -/
theorem c10_source_files_served_transpiled (root : List Str) (p : Str) (fs : FS)
    (esb : Esb) (lr : Bool) (c out : Str) (hws : p ≠ wsPathname)
    (hfile : fs (joinPath root p) = some (.file (some c)))
    (hext : TRANSPILE_EXTENSIONS.contains
      (lower (extname (lastSeg (joinPath root p)))) = true)
    (hesb : esb c (loaderForExt (lower (extname (lastSeg (joinPath root p)))))
      = .ok out) :
    handleRequest root lr fs esb p = some ⟨200, appJsMime, out⟩ := by
  simp only [handleRequest, resolvePath, if_neg hws, hfile, serveTranspiledFile, transpileFile,
    readFile, hext, hesb, Option.isSome_some, if_true]

/-- C10 witness: GET /app.tsx where app.tsx exists. -/
theorem c10_witness :
    handleRequest rootR false fsC10 esbC10 (strL "/app.tsx") =
      some ⟨200, appJsMime, strL "COMPILED"⟩ :=
  c10_source_files_served_transpiled rootR (strL "/app.tsx") fsC10 esbC10 false
    (strL "SRC") (strL "COMPILED") (by decide) (by decide) (by decide) rfl

/-- C8 counterexample: a.ts exists but reading it fails (the race the
claim explicitly includes). The transpile branch catches the read error
itself and answers 500 text/plain, not the 404 the claim requires. -/
theorem c8_counterexample :
    fsC8 (joinPath rootR (strL "/a.ts")) = some (.file none) ∧
    handleRequest rootR false fsC8 esbNone (strL "/a.ts") =
      some ⟨500, textPlainMime, transpilationErrorPre ++ ereadMsg⟩ ∧
    (handleRequest rootR false fsC8 esbNone (strL "/a.ts")).map Response.status ≠
      some 404 := by
  refine ⟨by decide, by decide, by decide⟩

/-- C8 (amended): whenever the resolved path (the joined path after
directory-to-index.html substitution and source-alternative resolution)
has no entry on disk, the request is answered with the fixed 404 page:
status 404, content type text/html, body containing the decoded request
path; in particular a directory whose index.html is missing gets that
page. A read error on a resolved static file is answered with the same
404 page, whatever its extension (the .js case is stated separately
because the handler first probes the .ts/.tsx siblings there). A read
error on a resolved file with a transpilable extension, however, is
answered 500 (the transpile branch wraps it), diverging from the
original claim. -/
theorem c8_missing_resolved_path_404 (root : List Str) (p : Str) (fs : FS)
    (esb : Esb) (lr : Bool) (hws : p ≠ wsPathname) :
    (fs (resolvePath fs (joinPath root p)) = none →
      handleRequest root lr fs esb p = some (send404 p)) ∧
    (fs (joinPath root p) = some Entry.dir →
      fs (joinPath root p ++ [indexHtml]) = none →
      handleRequest root lr fs esb p = some (send404 p)) ∧
    (send404 p).status = 404 ∧
    (send404 p).contentType = textHtmlMime ∧
    containsSub p (send404 p).body = true ∧
    (fs (resolvePath fs (joinPath root p)) = some (.file none) →
      TRANSPILE_EXTENSIONS.contains
        (lower (extname (lastSeg (resolvePath fs (joinPath root p))))) = false →
      lower (extname (lastSeg (resolvePath fs (joinPath root p)))) ≠ jsExt →
      handleRequest root lr fs esb p = some (send404 p)) ∧
    (fs (resolvePath fs (joinPath root p)) = some (.file none) →
      lower (extname (lastSeg (resolvePath fs (joinPath root p)))) = jsExt →
      fs (jsAlt (resolvePath fs (joinPath root p)) tsExt) = none →
      fs (jsAlt (resolvePath fs (joinPath root p)) tsxExt) = none →
      handleRequest root lr fs esb p = some (send404 p)) ∧
    (fs (resolvePath fs (joinPath root p)) = some (.file none) →
      TRANSPILE_EXTENSIONS.contains
        (lower (extname (lastSeg (resolvePath fs (joinPath root p))))) = true →
      (handleRequest root lr fs esb p).map Response.status = some 500) := by
  refine ⟨?_, ?_, rfl, rfl, containsSub_sandwich p page404Pre page404Post, ?_, ?_, ?_⟩
  · intro h0
    simp only [handleRequest, if_neg hws, h0, Option.isSome_none,
      Bool.false_eq_true, if_false]
  · intro hdir hidx
    have hrp : resolvePath fs (joinPath root p) = joinPath root p ++ [indexHtml] := by
      simp only [resolvePath, hdir]
    simp only [handleRequest, if_neg hws, hrp, hidx, Option.isSome_none,
      Bool.false_eq_true, if_false]
  · intro h0 hcon hjs
    simp only [handleRequest, if_neg hws, h0, hcon, Option.isSome_some, if_true,
      Bool.false_eq_true, if_false, if_neg hjs, serveStaticFile, readFile]
  · intro h0 hext hts htsx
    simp only [handleRequest, if_neg hws, h0, hext,
      show TRANSPILE_EXTENSIONS.contains jsExt = false from by decide,
      Bool.false_eq_true, if_false, hts, htsx, Option.isSome_none,
      Option.isSome_some, if_true, serveStaticFile, readFile]
  · intro h0 hcon
    simp only [handleRequest, if_neg hws, h0, hcon, Option.isSome_some, if_true,
      serveTranspiledFile, transpileFile, readFile, Option.map_some']

/-- C8 witness: GET /missing.png against an empty filesystem. -/
theorem c8_witness :
    handleRequest rootR false fsEmpty esbNone (strL "/missing.png") =
      some (send404 (strL "/missing.png")) :=
  (c8_missing_resolved_path_404 rootR (strL "/missing.png") fsEmpty esbNone false
    (by decide)).1 rfl

/-- C3 (amended): for a request path other than the reserved websocket
endpoint whose joined path is an existing directory containing a readable
index.html, serving the path gives the same response as serving
path/index.html. -/
theorem c3_directory_serves_index (root : List Str) (p : Str) (fs : FS) (esb : Esb)
    (lr : Bool) (c : Str) (hws : p ≠ wsPathname)
    (hdir : fs (joinPath root p) = some Entry.dir)
    (hidx : fs (joinPath root p ++ [indexHtml]) = some (.file (some c))) :
    handleRequest root lr fs esb p =
      handleRequest root lr fs esb (p ++ strL "/index.html") := by
  have hws' : p ++ strL "/index.html" ≠ wsPathname := append_index_ne_ws p
  have hjoin : joinPath root (p ++ strL "/index.html") = joinPath root p ++ [indexHtml] := by
    show normSegs (root ++ splitSlash (p ++ strL "/index.html")) = _
    rw [show p ++ strL "/index.html" = p ++ '/' :: strL "index.html" from rfl,
      splitSlash_append (strL "index.html") p,
      show splitSlash (strL "index.html") = [indexHtml] by decide,
      show root ++ (splitSlash p ++ [indexHtml]) = (root ++ splitSlash p) ++ [indexHtml]
        from (List.append_assoc _ _ _).symm,
      normSegs_concat _ _ (by decide) (by decide) (by decide)]
    rfl
  have hext : lower (extname (lastSeg (joinPath root p ++ [indexHtml]))) = htmlExt := by
    rw [lastSeg_concat]
    decide
  have hcontains : TRANSPILE_EXTENSIONS.contains htmlExt = false := by decide
  have hnejs : (htmlExt = jsExt) = False := eq_false (by decide)
  have hserve : serveStaticFile fs (joinPath root p ++ [indexHtml]) htmlExt lr =
      .ok ⟨200, lookupMime htmlExt,
        if htmlExt = htmlExt ∧ lr then injectReload c else c⟩ := by
    simp only [serveStaticFile, readFile, hidx]
  have hL : handleRequest root lr fs esb p =
      some ⟨200, lookupMime htmlExt,
        if htmlExt = htmlExt ∧ lr then injectReload c else c⟩ := by
    simp only [handleRequest, resolvePath, if_neg hws, hdir, hext, hcontains, Bool.false_eq_true,
      if_false, hnejs, hidx, Option.isSome_some, if_true, hserve]
  have hR : handleRequest root lr fs esb (p ++ strL "/index.html") =
      some ⟨200, lookupMime htmlExt,
        if htmlExt = htmlExt ∧ lr then injectReload c else c⟩ := by
    simp only [handleRequest, resolvePath, if_neg hws', hjoin, hext, hcontains, Bool.false_eq_true,
      if_false, hnejs, hidx, Option.isSome_some, if_true, hserve]
  rw [hL, hR]

/-- C3 witness: GET /d where d is a directory containing index.html. -/
theorem c3_witness :
    handleRequest rootR true fsC3w esbNone (strL "/d") =
      handleRequest rootR true fsC3w esbNone (strL "/d" ++ strL "/index.html") :=
  c3_directory_serves_index rootR (strL "/d") fsC3w esbNone true (strL "PAGE")
    (by decide) (by decide) (by decide)

theorem lookupMime_html : lookupMime htmlExt = textHtmlMime := by decide

set_option maxRecDepth 2000 in
/-- C4 counterexample: an HTML file whose content is exactly the injected
snippet. It has no closing body tag, so the snippet is appended, and the
200 response body is the snippet twice: there is no unique index at which
the snippet occurs (it occurs at index 0 and at its own length), so the
body does not contain exactly one copy of it. -/
theorem c4_counterexample :
    handleRequest rootR true fsC4 esbNone (strL "/x.html") =
      some ⟨200, textHtmlMime, LIVE_RELOAD_SCRIPT ++ LIVE_RELOAD_SCRIPT⟩ ∧
    ¬ ∃! i, occursAt LIVE_RELOAD_SCRIPT (LIVE_RELOAD_SCRIPT ++ LIVE_RELOAD_SCRIPT) i := by
  constructor
  · have hnb : containsSub bodyCloseTag LIVE_RELOAD_SCRIPT = false := by decide
    have hinj : injectReload LIVE_RELOAD_SCRIPT =
        LIVE_RELOAD_SCRIPT ++ LIVE_RELOAD_SCRIPT := by
      rw [injectReload, if_neg (by simp [hnb])]
    have hfs : fsC4 (joinPath rootR (strL "/x.html")) =
        some (.file (some LIVE_RELOAD_SCRIPT)) := by decide
    have hext2 : lower (extname (lastSeg (joinPath rootR (strL "/x.html")))) =
        htmlExt := by decide
    simp only [handleRequest, resolvePath,
      if_neg (show ¬ (strL "/x.html" = wsPathname) by decide), hfs, hext2,
      show TRANSPILE_EXTENSIONS.contains htmlExt = false from by decide,
      Bool.false_eq_true, if_false,
      eq_false (show ¬ (htmlExt = jsExt) by decide), Option.isSome_some, if_true,
      serveStaticFile, readFile]
    simp [hinj, lookupMime_html]
  · rintro ⟨i, _, hu⟩
    have h0 : occursAt LIVE_RELOAD_SCRIPT (LIVE_RELOAD_SCRIPT ++ LIVE_RELOAD_SCRIPT) 0 := by
      simp [occursAt, take_append_len]
    have hL : occursAt LIVE_RELOAD_SCRIPT (LIVE_RELOAD_SCRIPT ++ LIVE_RELOAD_SCRIPT)
        LIVE_RELOAD_SCRIPT.length := by
      simp [occursAt, drop_append_len, List.take_length]
    have e0 := hu 0 h0
    have eL := hu LIVE_RELOAD_SCRIPT.length hL
    have hlen0 : LIVE_RELOAD_SCRIPT.length = 0 := eL.trans e0.symm
    have hne : LIVE_RELOAD_SCRIPT ≠ [] := by decide
    exact hne (List.length_eq_zero.mp hlen0)

/-- C4 (amended): with live reload enabled, serving an HTML file responds
200 text/html and the body is the file content with exactly one copy of
the client-bootstrap snippet inserted: at the position of the first
closing body tag when the content contains one (no earlier position
matches the tag), and appended at the end otherwise. (A body-level
occurrence count of exactly one additionally needs that the file content
does not itself contain copies of the snippet, as the counterexample
shows.) -/
theorem c4_inject_once (fs : FS) (p : List Str) (content : Str)
    (hc : fs p = some (.file (some content))) :
    ∃ r, serveStaticFile fs p htmlExt true = .ok r ∧ r.status = 200 ∧
      r.contentType = textHtmlMime ∧
      (containsSub bodyCloseTag content = true →
        ∃ i, bodyCloseTag.isPrefixOf (content.drop i) = true ∧
          (∀ j, j < i → bodyCloseTag.isPrefixOf (content.drop j) = false) ∧
          r.body = content.take i ++ LIVE_RELOAD_SCRIPT ++ content.drop i) ∧
      (containsSub bodyCloseTag content = false →
        r.body = content ++ LIVE_RELOAD_SCRIPT) := by
  refine ⟨⟨200, lookupMime htmlExt, injectReload content⟩, ?_, rfl,
    lookupMime_html, ?_, ?_⟩
  · simp [serveStaticFile, readFile, hc]
  · intro hcon
    obtain ⟨i, h1, h2, h3⟩ :=
      replaceSub_first bodyCloseTag (LIVE_RELOAD_SCRIPT ++ bodyCloseTag) (by decide)
        content hcon
    refine ⟨i, h1, h2, ?_⟩
    show injectReload content = _
    rw [injectReload, if_pos hcon, h3]
    have hdec : content.drop i = bodyCloseTag ++ content.drop (i + bodyCloseTag.length) := by
      have h := eq_append_drop_of_isPrefixOf bodyCloseTag (content.drop i) h1
      rw [List.drop_drop] at h
      exact h
    rw [hdec]
    simp [List.append_assoc]
  · intro hcon
    show injectReload content = _
    rw [injectReload, if_neg (by simp [hcon])]

/-- C4 witness: a small page with one closing body tag. -/
theorem c4_witness :
    ∃ r, serveStaticFile fsC4w [ strL "w.html"] htmlExt true = .ok r ∧
      r.status = 200 ∧ r.contentType = textHtmlMime ∧
      (containsSub bodyCloseTag (strL "<p></body>") = true →
        ∃ i, bodyCloseTag.isPrefixOf ((strL "<p></body>").drop i) = true ∧
          (∀ j, j < i → bodyCloseTag.isPrefixOf ((strL "<p></body>").drop j) = false) ∧
          r.body = (strL "<p></body>").take i ++ LIVE_RELOAD_SCRIPT ++
            (strL "<p></body>").drop i) ∧
      (containsSub bodyCloseTag (strL "<p></body>") = false →
        r.body = strL "<p></body>" ++ LIVE_RELOAD_SCRIPT) :=
  c4_inject_once fsC4w [ strL "w.html"] (strL "<p></body>") (by decide)

/-- C2 (amended): for a request to a compiled-script path x.js (joined
basename s0 ++ ".js"): when x.js does not exist, the source alternatives
are probed in the order .ts, .tsx, .jsx and the first existing one is
transpiled; when x.js exists, only .ts and then .tsx are preferred over
it, and when neither exists the literal bytes of x.js are served even if
x.jsx exists (the exists-branch never probes .jsx, which the
counterexample exhibits). -/
theorem c2_js_source_preference (root : List Str) (p : Str) (fs : FS) (esb : Esb)
    (lr : Bool) (s0 : Str) (hws : p ≠ wsPathname)
    (hlast : lastSeg (joinPath root p) = s0 ++ jsExt) (hs0 : s0 ≠ []) :
    (∀ c o, fs (joinPath root p) = none →
      fs ((joinPath root p).dropLast ++ [s0 ++ tsExt]) = some (.file (some c)) →
      esb c Loader.ts = .ok o →
      handleRequest root lr fs esb p = some ⟨200, appJsMime, o⟩) ∧
    (∀ c o, fs (joinPath root p) = none →
      fs ((joinPath root p).dropLast ++ [s0 ++ tsExt]) = none →
      fs ((joinPath root p).dropLast ++ [s0 ++ tsxExt]) = some (.file (some c)) →
      esb c Loader.tsx = .ok o →
      handleRequest root lr fs esb p = some ⟨200, appJsMime, o⟩) ∧
    (∀ c o, fs (joinPath root p) = none →
      fs ((joinPath root p).dropLast ++ [s0 ++ tsExt]) = none →
      fs ((joinPath root p).dropLast ++ [s0 ++ tsxExt]) = none →
      fs ((joinPath root p).dropLast ++ [s0 ++ jsxExt]) = some (.file (some c)) →
      esb c Loader.jsx = .ok o →
      handleRequest root lr fs esb p = some ⟨200, appJsMime, o⟩) ∧
    (∀ cjs c o, fs (joinPath root p) = some (.file cjs) →
      fs ((joinPath root p).dropLast ++ [s0 ++ tsExt]) = some (.file (some c)) →
      esb c Loader.ts = .ok o →
      handleRequest root lr fs esb p = some ⟨200, appJsMime, o⟩) ∧
    (∀ cjs c o, fs (joinPath root p) = some (.file cjs) →
      fs ((joinPath root p).dropLast ++ [s0 ++ tsExt]) = none →
      fs ((joinPath root p).dropLast ++ [s0 ++ tsxExt]) = some (.file (some c)) →
      esb c Loader.tsx = .ok o →
      handleRequest root lr fs esb p = some ⟨200, appJsMime, o⟩) ∧
    (∀ cjs, fs (joinPath root p) = some (.file (some cjs)) →
      fs ((joinPath root p).dropLast ++ [s0 ++ tsExt]) = none →
      fs ((joinPath root p).dropLast ++ [s0 ++ tsxExt]) = none →
      handleRequest root lr fs esb p = some ⟨200, appJsMime, cjs⟩) := by
  have hcons_js : jsExt = '.' :: strL "js" := by decide
  have hcons_ts : tsExt = '.' :: strL "ts" := by decide
  have hcons_tsx : tsxExt = '.' :: strL "tsx" := by decide
  have hcons_jsx : jsxExt = '.' :: strL "jsx" := by decide
  have hlen3 : jsExt.length = 3 := by decide
  have hjpne : joinPath root p ≠ [] := by
    intro h0
    have h1 : lastSeg ([] : List Str) = s0 ++ jsExt := by
      rw [← h0]
      exact hlast
    rw [show lastSeg ([] : List Str) = [] from rfl] at h1
    have h2 := congrArg List.length h1
    simp only [List.length_nil, List.length_append, hlen3] at h2
    omega
  have hextraw : extname (lastSeg (joinPath root p)) = jsExt := by
    rw [hlast, hcons_js]
    exact extname_dot s0 (strL "js") (by decide) (by decide) hs0
  have hdl3 : ∀ e : Str, (s0 ++ jsExt).take ((s0 ++ jsExt).length - 3) ++ e = s0 ++ e := by
    intro e
    have hlen : (s0 ++ jsExt).length - 3 = s0.length := by
      rw [List.length_append, hlen3]
      omega
    rw [hlen, take_append_len]
  have hcand : ∀ e : Str,
      withLastSeg (joinPath root p) (fun s => s.take (s.length - 3) ++ e) =
        (joinPath root p).dropLast ++ [s0 ++ e] := by
    intro e
    rw [withLastSeg_eq _ _ hjpne, hlast]
    rw [hdl3 e]
  have hjsalt : ∀ e : Str,
      jsAlt (joinPath root p) e = (joinPath root p).dropLast ++ [s0 ++ e] := by
    intro e
    simp only [jsAlt]
    rw [withLastSeg_eq _ _ hjpne, hlast]
    rw [if_pos (isSuffixOf_append_self s0 jsExt), hdl3 e]
  have hlastdl : ∀ x : Str, lastSeg ((joinPath root p).dropLast ++ [x]) = x :=
    fun x => lastSeg_concat _ x
  have hx_ts : lower (extname (s0 ++ tsExt)) = tsExt := by
    rw [hcons_ts, extname_dot s0 (strL "ts") (by decide) (by decide) hs0]
    decide
  have hx_tsx : lower (extname (s0 ++ tsxExt)) = tsxExt := by
    rw [hcons_tsx, extname_dot s0 (strL "tsx") (by decide) (by decide) hs0]
    decide
  have hx_jsx : lower (extname (s0 ++ jsxExt)) = jsxExt := by
    rw [hcons_jsx, extname_dot s0 (strL "jsx") (by decide) (by decide) hs0]
    decide
  have hx_js : lower (extname (s0 ++ jsExt)) = jsExt := by
    rw [hcons_js, extname_dot s0 (strL "js") (by decide) (by decide) hs0]
    decide
  have hm_ts : TRANSPILE_EXTENSIONS.contains tsExt = true := by decide
  have hm_tsx : TRANSPILE_EXTENSIONS.contains tsxExt = true := by decide
  have hm_jsx : TRANSPILE_EXTENSIONS.contains jsxExt = true := by decide
  have hm_js : TRANSPILE_EXTENSIONS.contains jsExt = false := by decide
  have hld_ts : loaderForExt tsExt = Loader.ts := by decide
  have hld_tsx : loaderForExt tsxExt = Loader.tsx := by decide
  have hld_jsx : loaderForExt jsxExt = Loader.jsx := by decide
  have hmime_js : lookupMime jsExt = appJsMime := by decide
  have hjs_ne_html : (jsExt = htmlExt) = False := eq_false (by decide)
  refine ⟨?_, ?_, ?_, ?_, ?_, ?_⟩
  · intro c o h0 hts hesb
    simp only [handleRequest, resolvePath, if_neg hws, h0, resolveFile, hextraw, hcand, hts,
      Option.isSome_some, if_true, hlastdl, hx_ts, hm_ts, serveTranspiledFile,
      transpileFile, readFile, hld_ts, hesb]
  · intro c o h0 htsn htsx hesb
    simp only [handleRequest, resolvePath, if_neg hws, h0, resolveFile, hextraw, hcand, htsn,
      htsx, Option.isSome_none, Option.isSome_some, Bool.false_eq_true, if_false,
      if_true, hlastdl, hx_tsx, hm_tsx, serveTranspiledFile, transpileFile,
      readFile, hld_tsx, hesb]
  · intro c o h0 htsn htsxn hjsx hesb
    simp only [handleRequest, resolvePath, if_neg hws, h0, resolveFile, hextraw, hcand, htsn,
      htsxn, hjsx, Option.isSome_none, Option.isSome_some, Bool.false_eq_true,
      if_false, if_true, hlastdl, hx_jsx, hm_jsx, serveTranspiledFile,
      transpileFile, readFile, hld_jsx, hesb]
  · intro cjs c o h0 hts hesb
    simp only [handleRequest, resolvePath, if_neg hws, h0, hlast, hx_js, hm_js,
      Bool.false_eq_true, if_false, hjsalt, hts, Option.isSome_some, if_true,
      hlastdl, hx_ts, serveTranspiledFile, transpileFile, readFile, hld_ts, hesb]
  · intro cjs c o h0 htsn htsx hesb
    simp only [handleRequest, resolvePath, if_neg hws, h0, hlast, hx_js, hm_js,
      Bool.false_eq_true, if_false, hjsalt, htsn, htsx, Option.isSome_none,
      Option.isSome_some, if_true, hlastdl, hx_tsx, serveTranspiledFile,
      transpileFile, readFile, hld_tsx, hesb]
  · intro cjs h0 htsn htsxn
    simp only [handleRequest, resolvePath, if_neg hws, h0, hlast, hx_js, hm_js,
      Bool.false_eq_true, if_false, hjsalt, htsn, htsxn, Option.isSome_none,
      Option.isSome_some, if_true, serveStaticFile, readFile, hmime_js,
      hjs_ne_html, false_and]

/-- C2 witness: GET /x.js where only x.ts exists. -/
theorem c2_witness :
    handleRequest rootR false fsC2w esbC2w (strL "/x.js") =
      some ⟨200, appJsMime, strL "B"⟩ :=
  (c2_js_source_preference rootR (strL "/x.js") fsC2w esbC2w false (strL "x")
    (by decide) (by decide) (by decide)).1 (strL "A") (strL "B") rfl (by decide) rfl

end TSLS
